import Mathlib

/-!
Verification of `download_audioset.py` (audiosetdl).

This file gives a shallow embedding of the stream selector, the ffmpeg
transcode retry engine, the segment downloader's planning logic and the job
scheduler of `src/download_audioset.py`, and proves the behavioural claims
about them.  Python floats are represented as exact rationals, fallible code
returns `Except`, and external effects (the command runner, the validators,
the filesystem) are abstracted as per-attempt outcome environments.
-/

/-- Python exception kinds the embedded code can raise. -/
inductive PyErr
  | valueError
  | indexError
  | typeError
  | notImplementedError
deriving DecidableEq, Repr

/-- An ffmpeg command-line argument token: `lit` is a string that Python's
`float` rejects (flags, names), `fnum` a string holding a numeric value,
represented exactly as a rational. -/
inductive Tok
  | lit (s : String)
  | fnum (q : ℚ)
deriving DecidableEq, Repr

/-- Python `list.index`, `Option`-valued: `none` models the `ValueError`
raised when the element is absent. -/
def pyIndex? (x : Tok) : List Tok → Option Nat
  | [] => none
  | y :: ys => if y = x then some 0 else (pyIndex? x ys).map (fun i => i + 1)

/-- Python `float(tok)`: succeeds exactly on numeric tokens. -/
def pyFloat : Tok → Option ℚ
  | .lit _ => none
  | .fnum q => some q

/-- Read `args[i]` and replace it by its float value plus `diff`, embedding
`args[i] = str(float(args[i]) + diff)`: `IndexError` when `i` is out of
range, `ValueError` when the token is not numeric. -/
def bumpAt (args : List Tok) (i : Nat) (diff : ℚ) : Except PyErr (List Tok) :=
  match args[i]? with
  | none => .error .indexError
  | some t =>
    match pyFloat t with
    | none => .error .valueError
    | some q => .ok (args.set i (.fnum (q + diff)))

/-- Embeds lines 288-293 of `download_audioset.py`: locate `-t` in the input
argument list and bump the following argument by `diff`; a `ValueError`
(either `-t` missing, or the token after it non-numeric) falls back to the
output argument list, whose own failures propagate uncaught. -/
def mutateDuration (ia oa : List Tok) (diff : ℚ) :
    Except PyErr (List Tok × List Tok) :=
  let tryIn : Except PyErr (List Tok) :=
    match pyIndex? (.lit "-t") ia with
    | none => .error .valueError
    | some i => bumpAt ia (i + 1) diff
  match tryIn with
  | .ok ia' => .ok (ia', oa)
  | .error .valueError =>
    (match pyIndex? (.lit "-t") oa with
     | none => Except.error PyErr.valueError
     | some j => bumpAt oa (j + 1) diff).map (fun oa' => (ia, oa'))
  | .error e => .error e

/-- Environment-determined outcome of one ffmpeg attempt (the external
`run_command` plus the optional validation callback).  `pex` records
whether a file exists at the output path when the handler for that outcome
checks `os.path.exists`.  A timeout surfaces as a `SubprocessError`, hence
as `proc`. -/
inductive Outcome
  | ok
  | proc (alreadyExists httpMatch pex : Bool)
  | badDuration (target actual : ℚ) (pex : Bool)
  | unopenable (pex : Bool)
  | invalid (pex : Bool)
deriving DecidableEq, Repr

/-- How one invocation of the retry engine ends. -/
inductive EngineExit
  | success
  | alreadyExists
  | exhausted
  | raised (e : PyErr)
deriving DecidableEq, Repr

/-- Observable result of one engine invocation: the exit kind, the number of
`run_command` invocations, the attempt indices after which the output file
was removed, the final argument lists, the last recorded error, and whether
the maximum-retries error message was logged. -/
structure EngineResult where
  exit : EngineExit
  attempts : Nat
  deletions : List Nat
  input_args : List Tok
  output_args : List Tok
  last_err : Option Outcome
  loggedMaxRetries : Bool
deriving DecidableEq, Repr

/-- One pass of the retry loop of `ffmpeg` (lines 256-317): `a` is the
current attempt index, the second argument the remaining iterations of
`range(num_retries)`; reaching zero remaining iterations triggers the
`for`-`else` branch, which logs the exhaustion error and returns. -/
def runAttempts (env : Nat → Outcome) (n : Nat) (a : Nat) :
    Nat → List Tok → List Tok → List Nat → Option Outcome → EngineResult
  | 0, ia, oa, dels, last => ⟨.exhausted, a, dels, ia, oa, last, true⟩
  | rem + 1, ia, oa, dels, last =>
    match env a with
    | .ok => ⟨.success, a + 1, dels, ia, oa, last, false⟩
    | .proc ae http pex =>
      if ae then
        ⟨.alreadyExists, a + 1, dels, ia, oa, some (.proc ae http pex), false⟩
      else if http then
        runAttempts env n (a + 1) rem ia oa dels (some (.proc ae http pex))
      else
        runAttempts env n (a + 1) rem ia oa (if pex then dels ++ [a] else dels)
          (some (.proc ae http pex))
    | .badDuration tgt act pex =>
      let dels' := if decide (a < n - 1) && pex then dels ++ [a] else dels
      match mutateDuration ia oa (tgt - act) with
      | .error e => ⟨.raised e, a + 1, dels', ia, oa, some (.badDuration tgt act pex), false⟩
      | .ok (ia', oa') =>
        runAttempts env n (a + 1) rem ia' oa' dels' (some (.badDuration tgt act pex))
    | .unopenable pex =>
      runAttempts env n (a + 1) rem ia oa (if pex then dels ++ [a] else dels)
        (some (.unopenable pex))
    | .invalid pex =>
      runAttempts env n (a + 1) rem ia oa
        (if decide (a < n - 1) && pex then dels ++ [a] else dels)
        (some (.invalid pex))

/-- The ffmpeg transcode retry engine: the loop body of `ffmpeg` starting at
line 256, with attempt indices `0, …, n-1`. -/
def ffmpegEngine (env : Nat → Outcome) (n : Nat) (ia oa : List Tok) : EngineResult :=
  runAttempts env n 0 n ia oa [] none

/-- Holds when the duration-argument mutation of lines 288-293 succeeds: a
`-t` followed by a numeric token is reachable (in the input list, or in the
output list after a `ValueError` on the input list). -/
def mutOk (ia oa : List Tok) : Bool :=
  match mutateDuration ia oa 0 with
  | .ok _ => true
  | .error _ => false

/-- One youtube-dl format dictionary, restricted to the fields the stream
selector reads.  `abr` is optional, read as `f.get('abr', 0)`; `width` and
`tbr` are read with mandatory lookup inside the video sort key. -/
structure Format where
  acodec : String
  vcodec : String
  protocol : String
  abr : Option ℚ
  width : ℚ
  tbr : ℚ
  url : String
deriving DecidableEq, Repr

/-- Line 342: audio present and no video. -/
def format_is_audio_only (f : Format) : Bool :=
  f.acodec != "none" && f.vcodec == "none"

/-- Line 347: video present and no audio. -/
def format_is_video_only (f : Format) : Bool :=
  f.acodec == "none" && f.vcodec != "none"

/-- Line 352: both audio and video present. -/
def format_is_video_with_audio (f : Format) : Bool :=
  f.acodec != "none" && f.vcodec != "none"

/-- Line 362: the protocol is not segmented streaming. -/
def format_is_not_dash (f : Format) : Bool :=
  f.protocol != "http_dash_segments"

/-- Line 365. -/
def filter_formats (fmts : List Format) : List Format :=
  fmts.filter format_is_not_dash

/-- Stable descending insertion: place `x` in front of the first element
whose key is not strictly greater than `key x`. -/
def insDesc {α κ : Type} (lt : κ → κ → Bool) (key : α → κ) (x : α) :
    List α → List α
  | [] => [x]
  | y :: ys =>
    if lt (key x) (key y) then y :: insDesc lt key x ys else x :: y :: ys

/-- Python's `sorted(l, key=key, reverse=True)`: the stable descending sort
(stability, i.e. preservation of original order among equal keys, pins
down the result uniquely, so insertion sort is a faithful embedding). -/
def pySortedRev {α κ : Type} (lt : κ → κ → Bool) (key : α → κ) :
    List α → List α
  | [] => []
  | x :: xs => insDesc lt key x (pySortedRev lt key xs)

/-- Specification-side selector, following the spec's words: the first
element of the list attaining the maximal key, ties going to the element
earliest in the original resolver order. -/
def firstMax {α κ : Type} (lt : κ → κ → Bool) (key : α → κ) : List α → Option α
  | [] => none
  | x :: xs =>
    some (match firstMax lt key xs with
          | none => x
          | some m => if lt (key x) (key m) then m else x)

/-- Strict order on audio bitrates. -/
def ltRat (a b : ℚ) : Bool := decide (a < b)

/-- Python tuple comparison on `(width, tbr)` sort keys (lexicographic). -/
def ltPair (a b : ℚ × ℚ) : Bool :=
  decide (a.1 < b.1 ∨ (a.1 = b.1 ∧ a.2 < b.2))

/-- The sort key of `sort_audio_formats`: `f.get('abr', 0)`. -/
def audioKey (f : Format) : ℚ := f.abr.getD 0

/-- The sort key of `sort_video_formats`: `(f['width'], f['tbr'])`. -/
def videoKey (f : Format) : ℚ × ℚ := (f.width, f.tbr)

/-- Line 357. -/
def sort_audio_formats (fmts : List Format) : List Format :=
  pySortedRev ltRat audioKey (fmts.filter format_is_audio_only)

/-- Line 378. -/
def sort_video_formats (fmts : List Format) (with_audio : Bool) : List Format :=
  pySortedRev ltPair videoKey
    (fmts.filter
      (if with_audio then format_is_video_with_audio else format_is_video_only))

/-- Lines 368-374: best audio-only format after dropping dash formats, or
`None`. -/
def get_best_audio_format (fmts : List Format) : Option Format :=
  (sort_audio_formats (filter_formats fmts)).head?

/-- Lines 390-407: mode-keyed best video format; indexing an empty sorted
list is an `IndexError`, an unknown mode a `ValueError`. -/
def get_best_video_format (fmts : List Format) (video_mode : String) :
    Except PyErr (Option Format) :=
  let fs := filter_formats fmts
  let vno := sort_video_formats fs false
  let va := sort_video_formats fs true
  if video_mode = "" then .ok none
  else if video_mode = "bestvideo" ∨ video_mode = "bestvideowithaudio" then
    match vno with
    | f :: _ => .ok (some f)
    | [] =>
      match va with
      | f :: _ => .ok (some f)
      | [] => .error .indexError
  else if video_mode = "bestvideoaudio" ∨ video_mode = "bestvideoaudionoaudio" then
    match va with
    | f :: _ => .ok (some f)
    | [] => .error .indexError
  else .error .valueError

/-- Lines 510-516 of `download_yt_video`: clamp the segment end to the
media's total duration; returns `(ts_end, duration, end_past_video_end)`. -/
def clamp_segment (ts_start ts_end video_duration : ℚ) : ℚ × ℚ × Bool :=
  let duration := ts_end - ts_start
  if video_duration < ts_end then
    (ts_start + (video_duration - ts_start), video_duration - ts_start, true)
  else (ts_end, duration, false)

/-- Line 521: `best_audio['url'] if best_audio else best_video['url']`;
subscripting a `None` video stream raises `TypeError`. -/
def select_audio_url (best_video best_audio : Option Format) :
    Except PyErr String :=
  match best_audio with
  | some a => .ok a.url
  | none =>
    match best_video with
    | some v => .ok v.url
    | none => .error .typeError

/-- Modelled from the spec: `get_media_filename` is defined in the
repository's `utils` module, which is absent from `src/`; spec section 6
gives the output layout `<id>_<start ms>_<end ms>`. -/
def get_media_filename (ytid : String) (ts_start ts_end : ℚ) : String :=
  ytid ++ "_" ++ toString ⌊ts_start * 1000⌋ ++ "_" ++ toString ⌊ts_end * 1000⌋

/-- The ffmpeg configuration options consumed by `download_yt_video`. -/
structure FfmpegCfg where
  audio_codec : String
  audio_format : String
  audio_sample_rate : ℚ
  audio_bit_depth : Nat
  video_codec : String
  video_format : String
  video_mode : String
  video_frame_rate : ℚ
deriving DecidableEq, Repr

/-- One planned invocation of the retry engine inside `download_yt_video`:
source URLs, destination path, argument lists, and whether a validation
callback (carrying the `end_past_video_end` flag) is attached. -/
structure Call where
  inputs : List String
  output : String
  input_args : List Tok
  output_args : List Tok
  has_validator : Bool
  val_flag : Bool
deriving DecidableEq, Repr

/-- Embeds the control flow of `download_yt_video` (lines 487-617) down to
the sequence of retry-engine invocations it performs: the calls made, in
order, and the exception (if any) that aborts the function.  The engine
runs themselves and the final merge-file move are external effects outside
the plan. -/
def download_yt_video_plan (output_dir ytid : String)
    (ts_start ts_end video_duration : ℚ) (fmts : List Format)
    (cfg : FfmpegCfg) : List Call × Option PyErr :=
  let media_filename := get_media_filename ytid ts_start ts_end
  let video_filepath :=
    output_dir ++ "/video/" ++ media_filename ++ "." ++ cfg.video_format
  let audio_filepath :=
    output_dir ++ "/audio/" ++ media_filename ++ "." ++ cfg.audio_format
  let cl := clamp_segment ts_start ts_end video_duration
  let duration := cl.2.1
  let end_past := cl.2.2
  match get_best_video_format fmts cfg.video_mode with
  | .error e => ([], some e)
  | .ok best_video =>
    let best_audio := get_best_audio_format fmts
    match select_audio_url best_video best_audio with
    | .error e => ([], some e)
    | .ok best_audio_url =>
      let audio_call : Call :=
        ⟨[best_audio_url], audio_filepath,
         [.lit "-n", .lit "-ss", .fnum ts_start],
         [.lit "-t", .fnum duration, .lit "-ar", .fnum cfg.audio_sample_rate,
          .lit "-vn", .lit "-ac", .fnum 2,
          .lit "-sample_fmt", .lit ("s" ++ toString cfg.audio_bit_depth),
          .lit "-f", .lit cfg.audio_format, .lit "-acodec", .lit cfg.audio_codec],
         true, end_past⟩
      if cfg.video_mode = "" then ([audio_call], none)
      else if cfg.video_mode ≠ "bestvideowithaudio" then
        match best_video with
        | none => ([audio_call], some .valueError)
        | some v =>
          ([audio_call,
            ⟨[v.url], video_filepath,
             [.lit "-n", .lit "-ss", .fnum ts_start],
             [.lit "-t", .fnum duration, .lit "-f", .lit cfg.video_format,
              .lit "-r", .fnum cfg.video_frame_rate,
              .lit "-vcodec", .lit cfg.video_codec]
             ++ (if cfg.video_mode = "bestvideo" ∨
                    cfg.video_mode = "bestvideoaudionoaudio"
                 then [.lit "-an"] else []),
             true, end_past⟩], none)
      else
        if cfg.video_codec ≠ "h264" then
          ([audio_call], some .notImplementedError)
        else
          match best_video with
          | none => ([audio_call], some .valueError)
          | some v =>
            ([audio_call,
              ⟨[v.url], video_filepath,
               [.lit "-n", .lit "-ss", .fnum ts_start],
               [.lit "-t", .fnum duration, .lit "-f", .lit cfg.video_format,
                .lit "-crf", .fnum 0, .lit "-preset", .lit "medium",
                .lit "-r", .fnum cfg.video_frame_rate, .lit "-an",
                .lit "-vcodec", .lit cfg.video_codec],
               false, false⟩,
              ⟨[video_filepath, audio_filepath],
               output_dir ++ "/video/" ++ media_filename ++ "_merge." ++ cfg.video_format,
               [.lit "-n"],
               [.lit "-f", .lit cfg.video_format, .lit "-r", .fnum cfg.video_frame_rate,
                .lit "-vcodec", .lit cfg.video_codec, .lit "-acodec", .lit "aac",
                .lit "-ar", .fnum cfg.audio_sample_rate, .lit "-ac", .fnum 2,
                .lit "-strict", .lit "experimental"],
               true, end_past⟩], none)

/-- Numeric value of a digit string. -/
def digitsVal (cs : List Char) : Nat :=
  cs.foldl (fun n c => n * 10 + (c.toNat - 48)) 0

/-- Whether every character is a decimal digit. -/
def allDigits (cs : List Char) : Bool := cs.all (fun c => c.isDigit)

/-- Python `float` on the decimal literals appearing in segment CSV rows:
optional sign, integer part, optional fractional part; `none` models the
`ValueError` on anything else. -/
def pyFloatStr? (s : String) : Option ℚ :=
  let cs := s.toList
  let hasSign := cs.head? = some '-' ∨ cs.head? = some '+'
  let sgn : ℚ := if cs.head? = some '-' then -1 else 1
  let body := if hasSign then cs.tail else cs
  let ip := body.takeWhile (fun c => c ≠ '.')
  let fp := (body.dropWhile (fun c => c ≠ '.')).tail
  if allDigits ip && allDigits fp && !(ip.isEmpty && fp.isEmpty) then
    some (sgn * ((digitsVal ip : ℚ) + (digitsVal fp : ℚ) / ((10 : ℚ) ^ fp.length)))
  else none

/-- A scheduled download job. -/
structure Job where
  ytid : String
  ts_start : ℚ
  ts_end : ℚ
deriving DecidableEq, Repr

/-- One item yielded by the CSV reader: a parsed row, or a `csv.Error`
raised by the iterator on a malformed row. -/
inductive RowItem
  | row (fields : List String)
  | csvErr
deriving DecidableEq, Repr

/-- Body of the `setup_jobs` loop for one row (lines 833-852): skip comment
rows, rows whose output artifacts exist, and rows whose id is in the
failure ledger; surviving well-formed rows yield a job; `IndexError` and
`ValueError` escape the loop (they are not `csv.Error`). -/
def processRow (output_exists : String → ℚ → ℚ → Bool)
    (failed_ids : List String) (fields : List String) :
    Except PyErr (Option Job) :=
  match fields[0]? with
  | none => .error .indexError
  | some f0 =>
    match f0.toList.head? with
    | none => .error .indexError
    | some ch =>
      if ch = '#' then .ok none
      else
        match fields[1]? with
        | none => .error .indexError
        | some f1 =>
          match pyFloatStr? f1 with
          | none => .error .valueError
          | some s =>
            match fields[2]? with
            | none => .error .indexError
            | some f2 =>
              match pyFloatStr? f2 with
              | none => .error .valueError
              | some e =>
                if output_exists f0 s e then .ok none
                else if f0 ∈ failed_ids then .ok none
                else .ok (some ⟨f0, s, e⟩)

/-- The `setup_jobs` closure (lines 827-859): builds the job list in row
order.  The `try`/`except csv.Error` wraps the whole loop, so a `csv.Error`
stops the iteration and the jobs accumulated so far are returned; any
other exception escapes with no job list at all. -/
def setup_jobs (output_exists : String → ℚ → ℚ → Bool)
    (failed_ids : List String) : List RowItem → Except PyErr (List Job)
  | [] => .ok []
  | .csvErr :: _ => .ok []
  | .row fields :: rest =>
    match processRow output_exists failed_ids fields with
    | .error e => .error e
    | .ok none => setup_jobs output_exists failed_ids rest
    | .ok (some j) => (setup_jobs output_exists failed_ids rest).map (fun js => j :: js)

/-- What `process_job` does with a job before any download work. -/
inductive JobAction
  | skipExists
  | skipFailed
  | runJob
deriving DecidableEq, Repr

/-- Guard of `process_job` (lines 759-773): skip when the outputs exist,
then skip when the id failed previously, else run the worker. -/
def process_job_action (output_exists in_failed : Bool) : JobAction :=
  if output_exists then .skipExists
  else if in_failed then .skipFailed
  else .runJob

/-- Witness data: an audio-only stream descriptor. -/
def exAudio1 : Format := ⟨"mp4a", "none", "https", some 128, 0, 0, "a1"⟩

/-- Witness data: a second audio-only descriptor with the same bitrate. -/
def exAudio2 : Format := ⟨"mp4a", "none", "https", some 128, 0, 0, "a2"⟩

/-- Witness data: a segmented-streaming descriptor with the best bitrate. -/
def exDash : Format := ⟨"mp4a", "none", "http_dash_segments", some 999, 0, 0, "d"⟩

/-- Witness data: a video-with-audio descriptor. -/
def exVid1 : Format := ⟨"mp4a", "avc1", "https", none, 640, 1000, "v1"⟩

/-- Witness data: a wider video-with-audio descriptor. -/
def exVid2 : Format := ⟨"mp4a", "avc1", "https", none, 1280, 500, "v2"⟩

/-- Witness data: a stream list exercising the dash filter and a bitrate
tie. -/
def exFmts : List Format := [exDash, exAudio1, exAudio2, exVid1, exVid2]

/-- Witness data: a stream list with no audio-only descriptor. -/
def exFmtsNoAudio : List Format := [exVid1, exVid2]

/-- Witness data: a merge-mode configuration with a non-h264 codec. -/
def exCfgMerge : FfmpegCfg :=
  ⟨"flac", "flac", 48000, 16, "vp9", "mp4", "bestvideowithaudio", 30⟩

/-- Witness data: an audio-only configuration. -/
def exCfgAudio : FfmpegCfg := ⟨"flac", "flac", 48000, 16, "h264", "mp4", "", 30⟩

/-- Equation lemma: the exhausted case of the retry loop. -/
theorem runAttempts_zero (env : Nat → Outcome) (n a : Nat) (ia oa : List Tok)
    (dels : List Nat) (last : Option Outcome) :
    runAttempts env n a 0 ia oa dels last = ⟨.exhausted, a, dels, ia, oa, last, true⟩ := rfl

/-- Step lemma: an attempt whose validation raises a generic
`FfmpegValidationError`. -/
theorem runAttempts_invalid (env : Nat → Outcome) (n a r : Nat) (ia oa : List Tok)
    (dels : List Nat) (last : Option Outcome) (pex : Bool)
    (h : env a = .invalid pex) :
    runAttempts env n a (r + 1) ia oa dels last =
      runAttempts env n (a + 1) r ia oa
        (if decide (a < n - 1) && pex then dels ++ [a] else dels)
        (some (.invalid pex)) := by
  simp only [runAttempts, h]

/-- Claim C1: with a retry budget of 3 and a validator raising a generic
validation failure on every attempt while every command run succeeds (and
leaves a partial output file), the engine performs exactly 3 attempts,
deletes the partial output after attempts 0 and 1 but not after attempt 2,
logs the exhaustion error, and returns normally (exit `exhausted`, never
`raised`). -/
theorem retry_budget_exhaustion_spec (env : Nat → Outcome) (ia oa : List Tok)
    (h : ∀ k, k < 3 → env k = .invalid true) :
    ffmpegEngine env 3 ia oa =
      ⟨.exhausted, 3, [0, 1], ia, oa, some (.invalid true), true⟩ := by
  have h0 := h 0 (by norm_num)
  have h1 := h 1 (by norm_num)
  have h2 := h 2 (by norm_num)
  show runAttempts env 3 0 (0 + 1 + 1 + 1) ia oa [] none = _
  rw [runAttempts_invalid env 3 0 (0 + 1 + 1) ia oa [] none true h0]
  rw [runAttempts_invalid env 3 (0 + 1) (0 + 1) ia oa _ _ true h1]
  rw [runAttempts_invalid env 3 (0 + 1 + 1) 0 ia oa _ _ true h2]
  rw [runAttempts_zero]
  norm_num

/-- Witness for C1 at the constant environment. -/
theorem retry_budget_exhaustion_spec_witness :
    ffmpegEngine (fun _ => .invalid true) 3 [] [] =
      ⟨.exhausted, 3, [0, 1], [], [], some (.invalid true), true⟩ :=
  retry_budget_exhaustion_spec (fun _ => .invalid true) [] [] (fun _ _ => rfl)

/-- Step lemma: a successful attempt (run and validation pass). -/
theorem runAttempts_ok (env : Nat → Outcome) (n a r : Nat) (ia oa : List Tok)
    (dels : List Nat) (last : Option Outcome) (h : env a = .ok) :
    runAttempts env n a (r + 1) ia oa dels last =
      ⟨.success, a + 1, dels, ia, oa, last, false⟩ := by
  simp only [runAttempts, h]

/-- Step lemma: an attempt failing with a `SubprocessError`, split by the
stderr classification. -/
theorem runAttempts_proc (env : Nat → Outcome) (n a r : Nat) (ia oa : List Tok)
    (dels : List Nat) (last : Option Outcome) (ae http pex : Bool)
    (h : env a = .proc ae http pex) :
    runAttempts env n a (r + 1) ia oa dels last =
      if ae then
        ⟨.alreadyExists, a + 1, dels, ia, oa, some (.proc ae http pex), false⟩
      else if http then
        runAttempts env n (a + 1) r ia oa dels (some (.proc ae http pex))
      else
        runAttempts env n (a + 1) r ia oa (if pex then dels ++ [a] else dels)
          (some (.proc ae http pex)) := by
  simp only [runAttempts, h]

/-- Step lemma: a duration-mismatch attempt whose argument mutation
succeeds. -/
theorem runAttempts_badDuration_ok (env : Nat → Outcome) (n a r : Nat)
    (ia oa : List Tok) (dels : List Nat) (last : Option Outcome)
    (tgt act : ℚ) (pex : Bool) (ia' oa' : List Tok)
    (h : env a = .badDuration tgt act pex)
    (hm : mutateDuration ia oa (tgt - act) = .ok (ia', oa')) :
    runAttempts env n a (r + 1) ia oa dels last =
      runAttempts env n (a + 1) r ia' oa'
        (if decide (a < n - 1) && pex then dels ++ [a] else dels)
        (some (.badDuration tgt act pex)) := by
  simp only [runAttempts, h, hm]

/-- Step lemma: a duration-mismatch attempt whose argument mutation raises,
ending the whole engine invocation with an exception. -/
theorem runAttempts_badDuration_raise (env : Nat → Outcome) (n a r : Nat)
    (ia oa : List Tok) (dels : List Nat) (last : Option Outcome)
    (tgt act : ℚ) (pex : Bool) (e : PyErr)
    (h : env a = .badDuration tgt act pex)
    (hm : mutateDuration ia oa (tgt - act) = .error e) :
    runAttempts env n a (r + 1) ia oa dels last =
      ⟨.raised e, a + 1,
       (if decide (a < n - 1) && pex then dels ++ [a] else dels),
       ia, oa, some (.badDuration tgt act pex), false⟩ := by
  simp only [runAttempts, h, hm]

/-- Step lemma: an attempt whose validation raises
`FfmpegUnopenableFileError`. -/
theorem runAttempts_unopenable (env : Nat → Outcome) (n a r : Nat)
    (ia oa : List Tok) (dels : List Nat) (last : Option Outcome) (pex : Bool)
    (h : env a = .unopenable pex) :
    runAttempts env n a (r + 1) ia oa dels last =
      runAttempts env n (a + 1) r ia oa (if pex then dels ++ [a] else dels)
        (some (.unopenable pex)) := by
  simp only [runAttempts, h]

/-- The duration mutation when `-t` occurs in the input list followed by a
numeric token. -/
theorem mutateDuration_input (ia oa : List Tok) (d : ℚ) (i : Nat) (q : ℚ)
    (hi : pyIndex? (.lit "-t") ia = some i)
    (hq : ia[i + 1]? = some (.fnum q)) :
    mutateDuration ia oa d = .ok (ia.set (i + 1) (.fnum (q + d)), oa) := by
  simp only [mutateDuration, bumpAt, hi, hq, pyFloat]

/-- The duration mutation when `-t` is absent from the input list and occurs
in the output list followed by a numeric token. -/
theorem mutateDuration_output (ia oa : List Tok) (d : ℚ) (j : Nat) (q : ℚ)
    (hi : pyIndex? (.lit "-t") ia = none)
    (hj : pyIndex? (.lit "-t") oa = some j)
    (hq : oa[j + 1]? = some (.fnum q)) :
    mutateDuration ia oa d = .ok (ia, oa.set (j + 1) (.fnum (q + d))) := by
  simp only [mutateDuration, bumpAt, hi, hj, hq, pyFloat, Except.map]

/-- Claim C2: on a duration-mismatch validation failure with a partial
output present and retry budget remaining, the engine computes
`diff = target - actual`, bumps the numeric argument following `-t`
(input argument list first, else the output argument list) by exactly
`diff`, deletes the partial output (deletion index 0 recorded), and
continues with the mutated arguments having consumed one attempt. -/
theorem duration_self_correction (env : Nat → Outcome) (m : Nat)
    (ia oa : List Tok) (tgt act : ℚ)
    (h0 : env 0 = .badDuration tgt act true) :
    (∀ i q, pyIndex? (.lit "-t") ia = some i →
       ia[i + 1]? = some (.fnum q) →
       ffmpegEngine env (m + 2) ia oa =
         runAttempts env (m + 2) 1 (m + 1)
           (ia.set (i + 1) (.fnum (q + (tgt - act)))) oa [0]
           (some (.badDuration tgt act true)))
    ∧ (∀ j q, pyIndex? (.lit "-t") ia = none →
         pyIndex? (.lit "-t") oa = some j →
         oa[j + 1]? = some (.fnum q) →
       ffmpegEngine env (m + 2) ia oa =
         runAttempts env (m + 2) 1 (m + 1)
           ia (oa.set (j + 1) (.fnum (q + (tgt - act)))) [0]
           (some (.badDuration tgt act true))) := by
  constructor
  · intro i q hi hq
    have hm := mutateDuration_input ia oa (tgt - act) i q hi hq
    show runAttempts env (m + 2) 0 ((m + 1) + 1) ia oa [] none = _
    rw [runAttempts_badDuration_ok env (m + 2) 0 (m + 1) ia oa [] none
        tgt act true _ _ h0 hm]
    have hp : 0 < m + 2 - 1 := by omega
    simp [hp]
  · intro j q hi hj hq
    have hm := mutateDuration_output ia oa (tgt - act) j q hi hj hq
    show runAttempts env (m + 2) 0 ((m + 1) + 1) ia oa [] none = _
    rw [runAttempts_badDuration_ok env (m + 2) 0 (m + 1) ia oa [] none
        tgt act true _ _ h0 hm]
    have hp : 0 < m + 2 - 1 := by omega
    simp [hp]

/-- Witness for C2: a `-t 5` in the input argument list is bumped to `7`
on a reported shortfall of `10 - 8 = 2`. -/
theorem duration_self_correction_witness :
    ffmpegEngine (fun _ => .badDuration 10 8 true) 2
        [Tok.lit "-ss", Tok.fnum 0, Tok.lit "-t", Tok.fnum 5] [] =
      runAttempts (fun _ => .badDuration 10 8 true) 2 1 1
        [Tok.lit "-ss", Tok.fnum 0, Tok.lit "-t", Tok.fnum (5 + (10 - 8))] [] [0]
        (some (.badDuration 10 8 true)) :=
  (duration_self_correction (fun _ => .badDuration 10 8 true) 0
      [Tok.lit "-ss", Tok.fnum 0, Tok.lit "-t", Tok.fnum 5] [] 10 8 rfl).1
    2 5 rfl rfl

/-- Counterexample to C3 as stated: at attempt 0 the command fails with an
HTTP-pattern stderr while a partial output file exists, yet the engine
records no deletion before retrying (the deletions list of the finished
run is empty). -/
theorem http_retry_deletes_counterexample :
    (fun k => if k = 0 then Outcome.proc false true true else Outcome.ok) 0 =
        Outcome.proc false true true
    ∧ ffmpegEngine
        (fun k => if k = 0 then Outcome.proc false true true else Outcome.ok)
        2 [] [] =
      ⟨.success, 2, [], [], [], some (.proc false true true), false⟩ :=
  ⟨rfl, rfl⟩

/-- Claim C3 amended: an attempt failing with an HTTP-pattern process error
retries immediately with unchanged arguments, consuming one attempt of the
budget but deleting nothing (deletion happens only for unclassified
process errors). -/
theorem http_retry_no_delete (env : Nat → Outcome) (m : Nat)
    (ia oa : List Tok) (pex : Bool) (h0 : env 0 = .proc false true pex) :
    ffmpegEngine env (m + 1) ia oa =
      runAttempts env (m + 1) 1 m ia oa [] (some (.proc false true pex)) := by
  show runAttempts env (m + 1) 0 (m + 1) ia oa [] none = _
  rw [runAttempts_proc env (m + 1) 0 m ia oa [] none false true pex h0]
  simp

/-- Witness for C3's amended theorem. -/
theorem http_retry_no_delete_witness :
    ffmpegEngine (fun _ => .proc false true true) 1 [Tok.lit "-n"] [] =
      runAttempts (fun _ => .proc false true true) 1 1 0 [Tok.lit "-n"] []
        [] (some (.proc false true true)) :=
  http_retry_no_delete (fun _ => .proc false true true) 0 [Tok.lit "-n"] [] true rfl

/-- Counterexample to C4 as stated: a duration-mismatch validation failure
at an invocation whose argument lists carry no `-t` flag escapes the
engine as a `ValueError` (exactly what the merge-step call site of
`download_yt_video` passes), so a per-attempt validator error does
propagate to the caller. -/
theorem engine_error_escape_counterexample :
    (ffmpegEngine (fun _ => .badDuration 5 3 true) 1 [Tok.lit "-n"] []).exit =
      .raised .valueError := rfl

/-- First occurrence of `x` is unchanged by writing the position after it. -/
theorem pyIndex_set (x v : Tok) (l : List Tok) (i : Nat)
    (h : pyIndex? x l = some i) : pyIndex? x (l.set (i + 1) v) = some i := by
  induction l generalizing i with
  | nil => simp [pyIndex?] at h
  | cons y ys ih =>
    by_cases hy : y = x
    · simp [pyIndex?, hy] at h
      subst h
      simp [List.set, pyIndex?, hy]
    · simp [pyIndex?, hy] at h
      obtain ⟨i', hi', rfl⟩ := h
      simp [List.set, pyIndex?, hy, ih i' hi']

/-- Reading back a position just written. -/
theorem get_set_self (l : List Tok) (i : Nat) (v w : Tok)
    (h : l[i]? = some w) : (l.set i v)[i]? = some v := by
  induction l generalizing i with
  | nil => simp at h
  | cons y ys ih =>
    cases i with
    | zero => simp [List.set]
    | succ i' =>
      simp only [List.set, List.getElem?_cons_succ] at h ⊢
      exact ih i' h

/-- A successful duration mutation exists for every diff once `mutOk`
holds, and the mutated argument lists satisfy `mutOk` again. -/
theorem mutOk_preserved (ia oa : List Tok) (d : ℚ) (h : mutOk ia oa = true) :
    ∃ ia' oa', mutateDuration ia oa d = .ok (ia', oa') ∧ mutOk ia' oa' = true := by
  unfold mutOk at h ⊢
  cases hi : pyIndex? (.lit "-t") ia with
  | some i =>
    cases hq : ia[i + 1]? with
    | none => simp [mutateDuration, bumpAt, hi, hq] at h
    | some t =>
      cases t with
      | fnum q =>
        refine ⟨ia.set (i + 1) (.fnum (q + d)), oa,
          mutateDuration_input ia oa d i q hi hq, ?_⟩
        have hi' := pyIndex_set (.lit "-t") (.fnum (q + d)) ia i hi
        have hq' := get_set_self ia (i + 1) (.fnum (q + d)) (.fnum q) hq
        rw [mutateDuration_input (ia.set (i + 1) (.fnum (q + d))) oa 0
            i (q + d) hi' hq']
      | lit s =>
        cases hj : pyIndex? (.lit "-t") oa with
        | none => simp [mutateDuration, bumpAt, hi, hq, hj, pyFloat, Except.map] at h
        | some j =>
          cases hq2 : oa[j + 1]? with
          | none => simp [mutateDuration, bumpAt, hi, hq, hj, hq2, pyFloat, Except.map] at h
          | some t2 =>
            cases t2 with
            | lit s2 =>
              simp [mutateDuration, bumpAt, hi, hq, hj, hq2, pyFloat, Except.map] at h
            | fnum q2 =>
              have hstep : mutateDuration ia oa d =
                  .ok (ia, oa.set (j + 1) (.fnum (q2 + d))) := by
                simp only [mutateDuration, bumpAt, hi, hq, hj, hq2, pyFloat,
                  Except.map]
              refine ⟨ia, oa.set (j + 1) (.fnum (q2 + d)), hstep, ?_⟩
              have hj' := pyIndex_set (.lit "-t") (.fnum (q2 + d)) oa j hj
              have hq2' := get_set_self oa (j + 1) (.fnum (q2 + d)) (.fnum q2) hq2
              simp only [mutateDuration, bumpAt, hi, hq, hj', hq2', pyFloat,
                Except.map]
  | none =>
    cases hj : pyIndex? (.lit "-t") oa with
    | none => simp [mutateDuration, bumpAt, hi, hj, Except.map] at h
    | some j =>
      cases hq2 : oa[j + 1]? with
      | none => simp [mutateDuration, bumpAt, hi, hj, hq2, Except.map] at h
      | some t2 =>
        cases t2 with
        | lit s2 => simp [mutateDuration, bumpAt, hi, hj, hq2, pyFloat, Except.map] at h
        | fnum q2 =>
          refine ⟨ia, oa.set (j + 1) (.fnum (q2 + d)),
            mutateDuration_output ia oa d j q2 hi hj hq2, ?_⟩
          have hj' := pyIndex_set (.lit "-t") (.fnum (q2 + d)) oa j hj
          have hq2' := get_set_self oa (j + 1) (.fnum (q2 + d)) (.fnum q2) hq2
          rw [mutateDuration_output ia (oa.set (j + 1) (.fnum (q2 + d))) 0
              j (q2 + d) hi hj' hq2']

/-- The retry loop never raises and always flags the exhaustion log, as
long as the duration mutation can succeed on the current arguments. -/
theorem runAttempts_no_raise (env : Nat → Outcome) (n : Nat) (r : Nat) :
    ∀ a ia oa dels last, mutOk ia oa = true →
      (∀ e, (runAttempts env n a r ia oa dels last).exit ≠ .raised e)
      ∧ ((runAttempts env n a r ia oa dels last).exit = .exhausted →
          (runAttempts env n a r ia oa dels last).loggedMaxRetries = true) := by
  induction r with
  | zero =>
    intro a ia oa dels last _
    rw [runAttempts_zero]
    exact ⟨fun e h => by simp at h, fun _ => rfl⟩
  | succ r ih =>
    intro a ia oa dels last hok
    cases hEnv : env a with
    | ok =>
      rw [runAttempts_ok env n a r ia oa dels last hEnv]
      exact ⟨fun e h => by simp at h, fun h => by simp at h⟩
    | proc ae http pex =>
      rw [runAttempts_proc env n a r ia oa dels last ae http pex hEnv]
      cases ae with
      | true =>
        exact ⟨fun e h => by simp at h, fun h => by simp at h⟩
      | false =>
        cases http with
        | true => exact ih (a + 1) ia oa dels _ hok
        | false => exact ih (a + 1) ia oa _ _ hok
    | badDuration tgt act pex =>
      obtain ⟨ia', oa', hm, hok'⟩ := mutOk_preserved ia oa (tgt - act) hok
      rw [runAttempts_badDuration_ok env n a r ia oa dels last tgt act pex
          ia' oa' hEnv hm]
      exact ih (a + 1) ia' oa' _ _ hok'
    | unopenable pex =>
      rw [runAttempts_unopenable env n a r ia oa dels last pex hEnv]
      exact ih (a + 1) ia oa _ _ hok
    | invalid pex =>
      rw [runAttempts_invalid env n a r ia oa dels last pex hEnv]
      exact ih (a + 1) ia oa _ _ hok

/-- Claim C4 amended: provided the argument lists reach a numeric `-t`
value (as every `download_yt_video` call site except the merge step
arranges), every per-attempt error — process errors, timeouts surfacing
as process errors, and all validator-raised failures — is handled inside
the engine; no exception propagates, and the only exit other than success
(or the already-exists break, which the source treats as success) is
budget exhaustion, reported by logging the max-retries error and
returning. -/
theorem engine_no_escape (env : Nat → Outcome) (n : Nat) (ia oa : List Tok)
    (h : mutOk ia oa = true) :
    (∀ e, (ffmpegEngine env n ia oa).exit ≠ .raised e)
    ∧ ((ffmpegEngine env n ia oa).exit = .exhausted →
        (ffmpegEngine env n ia oa).loggedMaxRetries = true) :=
  runAttempts_no_raise env n n 0 ia oa [] none h

/-- Witness for C4's amended theorem. -/
theorem engine_no_escape_witness :
    mutOk [] [Tok.lit "-t", Tok.fnum 10] = true
    ∧ (ffmpegEngine (fun _ => .invalid true) 2
        [] [Tok.lit "-t", Tok.fnum 10]).exit ≠ .raised .valueError :=
  ⟨rfl, (engine_no_escape (fun _ => .invalid true) 2
      [] [Tok.lit "-t", Tok.fnum 10] rfl).1 .valueError⟩

/-- Head of a stable descending insertion. -/
theorem head?_insDesc {α κ : Type} (lt : κ → κ → Bool) (key : α → κ) (x : α)
    (l : List α) :
    (insDesc lt key x l).head? =
      some (match l.head? with
            | none => x
            | some y => if lt (key x) (key y) then y else x) := by
  cases l with
  | nil => rfl
  | cons y ys =>
    cases hlt : lt (key x) (key y) with
    | true => simp [insDesc, hlt]
    | false => simp [insDesc, hlt]

/-- The head of the stable descending sort is the first maximal element. -/
theorem head?_pySortedRev {α κ : Type} (lt : κ → κ → Bool) (key : α → κ)
    (l : List α) : (pySortedRev lt key l).head? = firstMax lt key l := by
  induction l with
  | nil => rfl
  | cons x xs ih =>
    rw [pySortedRev, head?_insDesc, ih, firstMax]

/-- A first-maximal element belongs to the list. -/
theorem firstMax_mem {α κ : Type} (lt : κ → κ → Bool) (key : α → κ)
    (l : List α) (a : α) (h : firstMax lt key l = some a) : a ∈ l := by
  induction l with
  | nil => simp [firstMax] at h
  | cons x xs ih =>
    rw [firstMax, Option.some_inj] at h
    cases hfm : firstMax lt key xs with
    | none =>
      rw [hfm] at h
      simp at h
      subst h
      exact List.mem_cons_self _ _
    | some m =>
      rw [hfm] at h
      cases hlt : lt (key x) (key m) with
      | true =>
        simp [hlt] at h
        subst h
        exact List.mem_cons_of_mem x (ih hfm)
      | false =>
        simp [hlt] at h
        subst h
        exact List.mem_cons_self _ _

/-- Audio sort unfolding. -/
theorem sort_audio_formats_eq (fs : List Format) :
    sort_audio_formats fs = pySortedRev ltRat audioKey (fs.filter format_is_audio_only) := rfl

/-- Video sort unfolding, audio-carrying case. -/
theorem svf_true (fs : List Format) :
    sort_video_formats fs true =
      pySortedRev ltPair videoKey (fs.filter format_is_video_with_audio) := rfl

/-- Video sort unfolding, video-only case. -/
theorem svf_false (fs : List Format) :
    sort_video_formats fs false =
      pySortedRev ltPair videoKey (fs.filter format_is_video_only) := rfl

/-- Mode dispatch: empty mode returns no video stream. -/
theorem gbvf_empty (fmts : List Format) :
    get_best_video_format fmts "" = .ok none := rfl

/-- Mode dispatch: the `bestvideo` family prefers video-only streams and
falls back to video-with-audio. -/
theorem gbvf_bestvideo_family (fmts : List Format) (mode : String)
    (h : mode = "bestvideo" ∨ mode = "bestvideowithaudio") :
    get_best_video_format fmts mode =
      match sort_video_formats (filter_formats fmts) false with
      | f :: _ => .ok (some f)
      | [] =>
        match sort_video_formats (filter_formats fmts) true with
        | f :: _ => .ok (some f)
        | [] => .error .indexError := by
  rcases h with rfl | rfl <;> rfl

/-- Mode dispatch: the `bestvideoaudio` family takes the best
video-with-audio stream with no fallback. -/
theorem gbvf_va_family (fmts : List Format) (mode : String)
    (h : mode = "bestvideoaudio" ∨ mode = "bestvideoaudionoaudio") :
    get_best_video_format fmts mode =
      match sort_video_formats (filter_formats fmts) true with
      | f :: _ => .ok (some f)
      | [] => .error .indexError := by
  rcases h with rfl | rfl <;> rfl

/-- Mode dispatch: any unrecognized mode is a `ValueError`. -/
theorem gbvf_invalid (fmts : List Format) (mode : String)
    (h0 : ¬mode = "")
    (h1 : ¬(mode = "bestvideo" ∨ mode = "bestvideowithaudio"))
    (h2 : ¬(mode = "bestvideoaudio" ∨ mode = "bestvideoaudionoaudio")) :
    get_best_video_format fmts mode = .error .valueError := by
  simp only [get_best_video_format]
  rw [if_neg h0, if_neg h1, if_neg h2]

/-- The head of a video sort never carries the dash protocol. -/
theorem sorted_head_not_dash (p : Format → Bool) (fmts : List Format)
    (f : Format) (t : List Format)
    (h : pySortedRev ltPair videoKey ((filter_formats fmts).filter p) = f :: t) :
    f.protocol ≠ "http_dash_segments" := by
  have h1 : firstMax ltPair videoKey ((filter_formats fmts).filter p) = some f := by
    rw [← head?_pySortedRev, h]; rfl
  have hm := firstMax_mem ltPair videoKey _ f h1
  have h2 : f ∈ fmts.filter format_is_not_dash := (List.mem_filter.mp hm).1
  have h3 := (List.mem_filter.mp h2).2
  simpa [format_is_not_dash, bne_iff_ne] using h3

/-- Claim C5: stream selection is deterministic (repeated calls agree),
never returns a segmented-streaming (`http_dash_segments`) descriptor, and
breaks equal sort keys by original resolver order: each selector returns
the first element of the order-preserving filtered candidate list that
attains the maximal sort key. -/
theorem stream_selection_determinism (fmts : List Format) (mode : String) :
    (get_best_audio_format fmts = get_best_audio_format fmts
      ∧ get_best_video_format fmts mode = get_best_video_format fmts mode)
    ∧ (∀ f, get_best_audio_format fmts = some f →
        f.protocol ≠ "http_dash_segments")
    ∧ (∀ f, get_best_video_format fmts mode = .ok (some f) →
        f.protocol ≠ "http_dash_segments")
    ∧ get_best_audio_format fmts =
        firstMax ltRat audioKey
          ((filter_formats fmts).filter format_is_audio_only)
    ∧ ((mode = "bestvideoaudio" ∨ mode = "bestvideoaudionoaudio") →
        get_best_video_format fmts mode =
          match firstMax ltPair videoKey
              ((filter_formats fmts).filter format_is_video_with_audio) with
          | some f => .ok (some f)
          | none => .error .indexError)
    ∧ ((mode = "bestvideo" ∨ mode = "bestvideowithaudio") →
        get_best_video_format fmts mode =
          match firstMax ltPair videoKey
              ((filter_formats fmts).filter format_is_video_only) with
          | some f => .ok (some f)
          | none =>
            match firstMax ltPair videoKey
                ((filter_formats fmts).filter format_is_video_with_audio) with
            | some f => .ok (some f)
            | none => .error .indexError) := by
  have hva : firstMax ltPair videoKey
      ((filter_formats fmts).filter format_is_video_with_audio) =
      (sort_video_formats (filter_formats fmts) true).head? := by
    rw [svf_true, head?_pySortedRev]
  have hvo : firstMax ltPair videoKey
      ((filter_formats fmts).filter format_is_video_only) =
      (sort_video_formats (filter_formats fmts) false).head? := by
    rw [svf_false, head?_pySortedRev]
  refine ⟨⟨rfl, rfl⟩, ?_, ?_, ?_, ?_, ?_⟩
  · intro f h
    rw [get_best_audio_format, sort_audio_formats_eq, head?_pySortedRev] at h
    have hm := firstMax_mem ltRat audioKey _ f h
    have h2 : f ∈ fmts.filter format_is_not_dash := (List.mem_filter.mp hm).1
    have h3 := (List.mem_filter.mp h2).2
    simpa [format_is_not_dash, bne_iff_ne] using h3
  · intro f h
    by_cases h0 : mode = ""
    · subst h0; rw [gbvf_empty] at h; simp at h
    · by_cases h1 : mode = "bestvideo" ∨ mode = "bestvideowithaudio"
      · rw [gbvf_bestvideo_family fmts mode h1] at h
        cases hvno : sort_video_formats (filter_formats fmts) false with
        | cons f' t =>
          rw [hvno] at h
          simp only [Except.ok.injEq, Option.some_inj] at h
          exact h ▸ sorted_head_not_dash format_is_video_only fmts f' t
            (by rw [← svf_false, hvno])
        | nil =>
          rw [hvno] at h
          cases hvas : sort_video_formats (filter_formats fmts) true with
          | cons f' t =>
            rw [hvas] at h
            simp only [Except.ok.injEq, Option.some_inj] at h
            exact h ▸ sorted_head_not_dash format_is_video_with_audio fmts f' t
              (by rw [← svf_true, hvas])
          | nil => rw [hvas] at h; simp at h
      · by_cases h2 : mode = "bestvideoaudio" ∨ mode = "bestvideoaudionoaudio"
        · rw [gbvf_va_family fmts mode h2] at h
          cases hvas : sort_video_formats (filter_formats fmts) true with
          | cons f' t =>
            rw [hvas] at h
            simp only [Except.ok.injEq, Option.some_inj] at h
            exact h ▸ sorted_head_not_dash format_is_video_with_audio fmts f' t
              (by rw [← svf_true, hvas])
          | nil => rw [hvas] at h; simp at h
        · rw [gbvf_invalid fmts mode h0 h1 h2] at h; simp at h
  · rw [get_best_audio_format, sort_audio_formats_eq, head?_pySortedRev]
  · intro h2
    rw [gbvf_va_family fmts mode h2, hva]
    cases sort_video_formats (filter_formats fmts) true with
    | cons f' t => rfl
    | nil => rfl
  · intro h1
    rw [gbvf_bestvideo_family fmts mode h1, hvo, hva]
    cases sort_video_formats (filter_formats fmts) false with
    | cons f' t => rfl
    | nil =>
      cases sort_video_formats (filter_formats fmts) true with
      | cons f' t => rfl
      | nil => rfl

/-- Witness for C5 on a concrete stream list containing a dash stream and
an audio bitrate tie. -/
theorem stream_selection_determinism_witness :
    exAudio1.protocol ≠ "http_dash_segments"
    ∧ get_best_video_format exFmts "bestvideoaudio" =
        match firstMax ltPair videoKey
            ((filter_formats exFmts).filter format_is_video_with_audio) with
        | some f => .ok (some f)
        | none => .error .indexError :=
  ⟨(stream_selection_determinism exFmts "bestvideoaudio").2.1 exAudio1 (by rfl),
   (stream_selection_determinism exFmts "bestvideoaudio").2.2.2.2.1 (Or.inl rfl)⟩

/-- Claim C6: when the stream list has no audio-only descriptor,
`get_best_audio_format` returns `None`; given a selected video stream, the
downloader substitutes that stream's URL as the audio source — both in the
URL-selection expression of line 521 and in the planned audio transcode
call, whose input is the selected video URL. -/
theorem audio_fallback_to_video (fmts : List Format) (mode : String) (v : Format)
    (hno : ∀ f ∈ fmts, format_is_audio_only f = false)
    (hv : get_best_video_format fmts mode = .ok (some v)) :
    get_best_audio_format fmts = none
    ∧ select_audio_url (some v) (get_best_audio_format fmts) = .ok v.url
    ∧ (∀ od ytid s e vd cfg c, cfg.video_mode = mode →
        (download_yt_video_plan od ytid s e vd fmts cfg).1.head? = some c →
        c.inputs = [v.url]) := by
  have hemp : (filter_formats fmts).filter format_is_audio_only = [] := by
    apply List.filter_eq_nil_iff.mpr
    intro a ha
    have ha2 : a ∈ fmts.filter format_is_not_dash := ha
    have haf : a ∈ fmts := (List.mem_filter.mp ha2).1
    simp [hno a haf]
  have hnone : get_best_audio_format fmts = none := by
    rw [get_best_audio_format, sort_audio_formats_eq, hemp]
    rfl
  refine ⟨hnone, by rw [hnone]; rfl, ?_⟩
  intro od ytid s e vd cfg c hmode hc
  simp only [download_yt_video_plan, hmode, hv, hnone, select_audio_url] at hc
  split at hc
  · simp only [List.head?_cons, Option.some_inj] at hc
    subst hc; rfl
  · split at hc
    · simp only [List.head?_cons, Option.some_inj] at hc
      subst hc; rfl
    · split at hc
      · simp only [List.head?_cons, Option.some_inj] at hc
        subst hc; rfl
      · simp only [List.head?_cons, Option.some_inj] at hc
        subst hc; rfl

/-- Witness for C6 on a stream list with only video-with-audio
descriptors. -/
theorem audio_fallback_to_video_witness :
    get_best_audio_format exFmtsNoAudio = none
    ∧ select_audio_url (some exVid2) (get_best_audio_format exFmtsNoAudio) =
        .ok exVid2.url :=
  ⟨(audio_fallback_to_video exFmtsNoAudio "bestvideoaudio" exVid2
      (by decide) rfl).1,
   (audio_fallback_to_video exFmtsNoAudio "bestvideoaudio" exVid2
      (by decide) rfl).2.1⟩

/-- Claim C7: when the requested end exceeds the media's total duration,
end and duration are clamped (`end = totalDuration`,
`duration = totalDuration - start`) and the end-past-media-end flag is set;
otherwise all three are unchanged with the flag false; and every
validator-bearing transcode call planned by the downloader carries exactly
that flag. -/
theorem segment_end_clamping (s e vd : ℚ) :
    (vd < e → clamp_segment s e vd = (vd, vd - s, true))
    ∧ (¬vd < e → clamp_segment s e vd = (e, e - s, false))
    ∧ (∀ od ytid fmts cfg c,
        c ∈ (download_yt_video_plan od ytid s e vd fmts cfg).1 →
        c.has_validator = true → c.val_flag = (clamp_segment s e vd).2.2) := by
  refine ⟨?_, ?_, ?_⟩
  · intro h
    simp only [clamp_segment, if_pos h]
    have hs : s + (vd - s) = vd := by ring
    rw [hs]
  · intro h
    simp only [clamp_segment, if_neg h]
  · intro od ytid fmts cfg c hc hval
    simp only [download_yt_video_plan] at hc
    split at hc
    · simp at hc
    · split at hc
      · simp at hc
      · split at hc
        · simp only [List.mem_singleton] at hc
          subst hc; rfl
        · split at hc
          · split at hc
            · simp only [List.mem_singleton] at hc
              subst hc; rfl
            · simp only [List.mem_cons, List.mem_singleton] at hc
              rcases hc with rfl | rfl | hc
              · rfl
              · rfl
              · simp at hc
          · split at hc
            · simp only [List.mem_singleton] at hc
              subst hc; rfl
            · split at hc
              · simp only [List.mem_singleton] at hc
                subst hc; rfl
              · simp only [List.mem_cons, List.mem_singleton] at hc
                rcases hc with rfl | rfl | rfl | hc
                · rfl
                · simp at hval
                · rfl
                · simp at hc

/-- Witness for C7: the spec's scenario `end = 20`, `totalDuration = 18`,
`start = 10` clamps to end 18, duration 8, flag set. -/
theorem segment_end_clamping_witness :
    clamp_segment 10 20 18 = (18, 8, true) := by
  have h := (segment_end_clamping 10 20 18).1 (by norm_num)
  rw [h]
  norm_num

/-- A row that yields a job is not in the failure ledger. -/
theorem processRow_some_not_failed (oe : String → ℚ → ℚ → Bool)
    (failed : List String) (fields : List String) (j : Job)
    (h : processRow oe failed fields = .ok (some j)) : j.ytid ∉ failed := by
  simp only [processRow] at h
  split at h
  · simp at h
  · split at h
    · simp at h
    · split at h
      · simp at h
      · split at h
        · simp at h
        · split at h
          · simp at h
          · split at h
            · simp at h
            · split at h
              · simp at h
              · split at h
                · simp at h
                · split at h
                  · simp at h
                  · next hmem =>
                    simp only [Except.ok.injEq, Option.some_inj] at h
                    subst h
                    exact hmem

/-- No job produced by `setup_jobs` carries a failed id. -/
theorem setup_jobs_not_failed (oe : String → ℚ → ℚ → Bool)
    (failed : List String) (rows : List RowItem) (jobs : List Job)
    (h : setup_jobs oe failed rows = .ok jobs) :
    ∀ j ∈ jobs, j.ytid ∉ failed := by
  induction rows generalizing jobs with
  | nil =>
    simp only [setup_jobs, Except.ok.injEq] at h
    subst h; simp
  | cons r rest ih =>
    cases r with
    | csvErr =>
      simp only [setup_jobs, Except.ok.injEq] at h
      subst h; simp
    | row fields =>
      rw [setup_jobs] at h
      cases hp : processRow oe failed fields with
      | error e2 => rw [hp] at h; simp at h
      | ok oj =>
        rw [hp] at h
        cases oj with
        | none => exact ih jobs h
        | some j0 =>
          cases hr : setup_jobs oe failed rest with
          | error e2 => rw [hr] at h; simp [Except.map] at h
          | ok js =>
            rw [hr] at h
            simp only [Except.map, Except.ok.injEq] at h
            subst h
            intro j hj
            rcases List.mem_cons.mp hj with rfl | hj2
            · exact processRow_some_not_failed oe failed fields j hp
            · exact ih js hr j hj2

/-- Claim C8: a segment id present in the failure ledger loaded at startup
is never turned into a job by `setup_jobs` — regardless of the
output-artifact predicate — and `process_job`'s own guard never runs the
worker for a previously failed id either. -/
theorem failure_ledger_exclusion (oe : String → ℚ → ℚ → Bool)
    (failed : List String) (rows : List RowItem) (jobs : List Job) (j : Job)
    (hok : setup_jobs oe failed rows = .ok jobs) (hj : j.ytid ∈ failed) :
    j ∉ jobs ∧ ∀ b, process_job_action b true ≠ .runJob := by
  refine ⟨fun hmem => setup_jobs_not_failed oe failed rows jobs hok j hmem hj, ?_⟩
  intro b
  cases b <;> simp [process_job_action]

/-- Witness for C8: a well-formed row whose id sits in the ledger produces
no job even though its output artifacts do not exist. -/
theorem failure_ledger_exclusion_witness :
    (⟨"a", 1, 2⟩ : Job) ∉ ([] : List Job)
    ∧ process_job_action false true ≠ .runJob :=
  ⟨(failure_ledger_exclusion (fun _ _ _ => false) ["a"]
      [.row ["#c"], .row ["a", "1", "2"]] [] ⟨"a", 1, 2⟩ rfl (by simp)).1,
   (failure_ledger_exclusion (fun _ _ _ => false) ["a"]
      [.row ["#c"], .row ["a", "1", "2"]] [] ⟨"a", 1, 2⟩ rfl (by simp)).2 false⟩

/-- Counterexample to C9 as stated: with a malformed (csv-error) row between
two well-formed rows, the well-formed row after it is not turned into a
job — the batch is truncated at the malformed row rather than skipping
it. -/
theorem malformed_row_aborts_counterexample :
    (setup_jobs (fun _ _ _ => false) []
        [.row ["a", "1", "2"], .csvErr, .row ["b", "3", "4"]]).map List.length =
      .ok 1
    ∧ (setup_jobs (fun _ _ _ => false) []
        [.row ["a", "1", "2"], .row ["b", "3", "4"]]).map List.length =
      .ok 2 :=
  ⟨rfl, rfl⟩

/-- Claim C9 amended: a row raising `csv.Error` is logged and stops the
processing of all subsequent rows; the jobs created from the rows before it
are kept and returned, so the malformed row does not abort those — but the
rows after it are lost rather than processed. -/
theorem csv_error_truncates_batch (oe : String → ℚ → ℚ → Bool)
    (failed : List String) (rows rest : List RowItem) :
    setup_jobs oe failed (rows ++ .csvErr :: rest) =
      setup_jobs oe failed rows := by
  induction rows with
  | nil => rfl
  | cons r rs ih =>
    cases r with
    | csvErr => rfl
    | row fields =>
      have ih2 : setup_jobs oe failed (rs.append (RowItem.csvErr :: rest)) =
          setup_jobs oe failed rs := ih
      simp only [List.cons_append, setup_jobs]
      rw [ih2]

/-- Claim C10: in merge mode (`bestvideowithaudio`) with a codec other than
h264, the download plan consists of exactly the audio transcode call
followed by `NotImplementedError`: the error is raised after the audio
step and before any video transcode, so no video call is planned. -/
theorem merge_mode_codec_guard (od ytid : String) (s e vd : ℚ)
    (fmts : List Format) (cfg : FfmpegCfg) (v : Format)
    (hm : cfg.video_mode = "bestvideowithaudio")
    (hc : ¬cfg.video_codec = "h264")
    (hv : get_best_video_format fmts "bestvideowithaudio" = .ok (some v)) :
    ∃ c, download_yt_video_plan od ytid s e vd fmts cfg =
        ([c], some .notImplementedError)
      ∧ c.output =
          od ++ "/audio/" ++ get_media_filename ytid s e ++ "." ++ cfg.audio_format
      ∧ c.has_validator = true := by
  simp only [download_yt_video_plan, hm, hv]
  cases hba : get_best_audio_format fmts with
  | some a =>
    simp only [select_audio_url]
    rw [if_neg (by decide), if_neg (by simp), if_pos hc]
    exact ⟨_, rfl, rfl, rfl⟩
  | none =>
    simp only [select_audio_url]
    rw [if_neg (by decide), if_neg (by simp), if_pos hc]
    exact ⟨_, rfl, rfl, rfl⟩

/-- Witness for C10 at a concrete merge-mode configuration with codec
`vp9`. -/
theorem merge_mode_codec_guard_witness :
    (download_yt_video_plan "o" "id" 0 1 10 exFmtsNoAudio exCfgMerge).2 =
      some .notImplementedError
    ∧ (download_yt_video_plan "o" "id" 0 1 10 exFmtsNoAudio exCfgMerge).1.length = 1 := by
  obtain ⟨c, h1, h2, h3⟩ := merge_mode_codec_guard "o" "id" 0 1 10
    exFmtsNoAudio exCfgMerge exVid2 rfl (by decide) rfl
  rw [h1]
  exact ⟨rfl, rfl⟩
